import Mathlib

/-!
Verification development for the TIF-to-image terrain pipeline:
a shallow embedding of the grid sampler and mesh builder
(`dem_to_mesh.py`), of the first-person navigator
(`interactive_viewer/simple_camera_viewer.py`), and of the ground-height
selection used by the other viewer variants
(`simple_world/world_viewer.py`), together with theorems settling the
frozen specification claims.  Machine floats are modelled by rationals;
a coordinate whose float computation is non-finite (NaN) is modelled by
`none`.
-/

namespace TifToImage

/-- A DEM elevation grid: `rows × cols` scalar elevations.  numpy arrays
are embedded as a total function together with the dimensions; only
indices `i < rows`, `j < cols` are ever consulted. -/
structure Grid where
  rows : Nat
  cols : Nat
  elev : Nat → Nat → ℚ

/-- rasterio's six-coefficient affine transform `(a, b, c, d, e, f)`:
`x = a·col + b·row + c`, `y = d·col + e·row + f` (applied to pixel
centers, i.e. index + 1/2, by `rasterio.transform.xy`'s default
`offset='center'`). -/
structure AffineT where
  a : ℚ
  b : ℚ
  c : ℚ
  d : ℚ
  e : ℚ
  f : ℚ

/-- One entry of `np.linspace(0, stop, num, dtype=int)` as used at
dem_to_mesh.py lines 18-19: for `num ≥ 2` the `i`-th sample is
`i * stop / (num - 1)` truncated to an integer (exact rational floor; at
every input used in this development the float64 computation is exact),
and `np.linspace(0, stop, 1) = [0]`. -/
def linIdx (stop num i : Nat) : Nat :=
  if num ≤ 1 then 0 else i * stop / (num - 1)

/-- dem_to_mesh.py lines 13-22: `downsampled_rows = rows // downsample_factor`,
`downsampled_cols = cols // downsample_factor`, then
`dem_data = dem_data[row_indices][:, col_indices]` with the `linspace`
index selection.  No validation of the downsampled size is performed:
the function is total and there is no error path (no `InvalidGridError`
exists anywhere in the repository). -/
def downsampleDem (g : Grid) (factor : Nat) : Grid :=
  { rows := g.rows / factor
    cols := g.cols / factor
    elev := fun i j =>
      g.elev (linIdx (g.rows - 1) (g.rows / factor) i)
             (linIdx (g.cols - 1) (g.cols / factor) j) }

/-- dem_to_mesh.py lines 59-68: the triangulation loop.  For each cell
`(i, j)` of the downsampled grid with `i < rows-1`, `j < cols-1`, with
`idx = i * cols + j`, `idx_right = idx + 1`, `idx_down = idx + cols`,
`idx_down_right = idx + cols + 1`, the loop appends
`[idx, idx_down, idx_down_right]` and `[idx, idx_down_right, idx_right]`. -/
def facesList (rows cols : Nat) : List (Nat × Nat × Nat) :=
  (List.range (rows - 1)).flatMap fun i =>
    (List.range (cols - 1)).flatMap fun j =>
      let idx := i * cols + j
      [(idx, idx + cols, idx + cols + 1), (idx, idx + cols + 1, idx + 1)]

/-- Row-major flattening of a `rows × cols` array whose `(i, j)` entry is
`f i j` (numpy `.flatten()` on the meshgrid-shaped arrays of
dem_to_mesh.py lines 27-37). -/
def flat2d (rows cols : Nat) (f : Nat → Nat → ℚ) : List ℚ :=
  (List.range rows).flatMap fun i => (List.range cols).map fun j => f i j

/-- Pre-normalization world x-coordinate of downsampled cell `(i, j)`
(dem_to_mesh.py lines 27-31).  The code calls
`rasterio.transform.xy(transform, x_coords * downsample_factor,
y_coords * downsample_factor)` where `x_coords[i,j] = j` (column index)
and `y_coords[i,j] = i` (row index); `rasterio.transform.xy(T, rows, cols)`
returns `x = T.a*(cols + 1/2) + T.b*(rows + 1/2) + T.c` with the default
center offset, so the column slot of the affine map receives the row
index `i` and the row slot receives the column index `j`. -/
def worldXRaw (T : AffineT) (factor : Nat) (i j : Nat) : ℚ :=
  T.a * ((i * factor : Nat) + 1/2) + T.b * ((j * factor : Nat) + 1/2) + T.c

/-- Pre-normalization world y-coordinate of downsampled cell `(i, j)`
(dem_to_mesh.py lines 27-31); same argument swap as `worldXRaw`. -/
def worldYRaw (T : AffineT) (factor : Nat) (i j : Nat) : ℚ :=
  T.d * ((i * factor : Nat) + 1/2) + T.e * ((j * factor : Nat) + 1/2) + T.f

/-- dem_to_mesh.py lines 44-47: min-max normalization of one flattened
coordinate array, `(v - np.min(l)) / (np.max(l) - np.min(l)) * scal` per
entry.  When `max = min` numpy evaluates `0.0 / 0.0` to NaN for every
entry; the embedding returns `none` for those non-finite values.  On an
empty array `np.min` raises, so no values are produced. -/
def minMaxNormVals (scal : ℚ) (l : List ℚ) : List (Option ℚ) :=
  match l.min?, l.max? with
  | some lo, some hi =>
      if hi = lo then l.map fun _ => none
      else l.map fun v => some ((v - lo) / (hi - lo) * scal)
  | _, _ => []

/-- The vertex list of `create_mesh_from_dem` before the Open3D cleanup
passes (dem_to_mesh.py lines 25-55): downsample, resolve the
pre-normalization world coordinates, flatten row-major, min-max
normalize x and y to `[0, 1000]` and z to `[0, 100]` (lines 45-47), and
stack the three columns (`np.column_stack`, line 55).  A `none`
component models a NaN coordinate. -/
def meshVertices (g : Grid) (T : AffineT) (factor : Nat) :
    List (Option ℚ × Option ℚ × Option ℚ) :=
  let ds := downsampleDem g factor
  let xs := minMaxNormVals 1000 (flat2d ds.rows ds.cols (worldXRaw T factor))
  let ys := minMaxNormVals 1000 (flat2d ds.rows ds.cols (worldYRaw T factor))
  let zs := minMaxNormVals 100 (flat2d ds.rows ds.cols ds.elev)
  xs.zip (ys.zip zs)

/-- The face list of `create_mesh_from_dem` (dem_to_mesh.py lines 58-71):
the triangulation loop applied to the downsampled dimensions. -/
def meshFaces (g : Grid) (factor : Nat) : List (Nat × Nat × Nat) :=
  facesList (downsampleDem g factor).rows (downsampleDem g factor).cols

/-- Typed failure demanded by the spec's §4.1/§7 taxonomy. -/
inductive GridError where
  | invalidGrid

/-- Modelled from the spec (§4.1), not from the source, for comparison
with `downsampleDem`: the spec's sampler computes
`newRows = floor(rows/factor)`, `newCols = floor(cols/factor)` and fails
with `InvalidGridError` if either is below 2.  The repository's code has
no such check. -/
def sampleSpec (g : Grid) (factor : Nat) : Except GridError Grid :=
  if g.rows / factor < 2 ∨ g.cols / factor < 2 then .error .invalidGrid
  else .ok (downsampleDem g factor)

/-- Modelled from the spec (§3/§4.1), not from the source: the planar
x-coordinate the claims assert for a vertex at original row/column
indices — the affine transform applied to the pixel center with the
standard rasterio convention (column index feeding the `a` coefficient). -/
def claimedWorldX (T : AffineT) (row col : ℚ) : ℚ :=
  T.a * (col + 1/2) + T.b * (row + 1/2) + T.c

/-- Camera pose of `SimpleCameraViewer`: planar position, height, and the
`camH`/`camP` angles (degrees). -/
structure Pose where
  x : ℚ
  y : ℚ
  z : ℚ
  heading : ℚ
  pitch : ℚ
deriving DecidableEq

/-- The `keyMap` of `SimpleCameraViewer.setup_controls`
(simple_camera_viewer.py lines 285-290). -/
structure KeyMap where
  forward : Bool
  backward : Bool
  left : Bool
  right : Bool
deriving DecidableEq

/-- `self.eye_height = 1.7` (simple_camera_viewer.py line 261). -/
def eyeHeight : ℚ := 17/10

/-- `speed = 5.0` in `SimpleCameraViewer.moveTask` (line 325). -/
def speedC : ℚ := 5

/-- simple_camera_viewer.py lines 441-444: sort the collision entries by
their surface z ascending and take the last one
(`entries.sort(key=lambda x: x.getSurfacePoint(self.render).getZ());
entries[-1].getSurfacePoint(self.render).getZ()`).  Python's stable
ascending `list.sort` is embedded as stable insertion sort.  `none` is
the empty queue (the `if entries:` guard of line 441 fails). -/
def selectTopHit (entries : List ℚ) : Option ℚ :=
  (List.insertionSort (· ≤ ·) entries).getLast?

/-- `SimpleCameraViewer.find_ground_height` (simple_camera_viewer.py lines
426-447).  The collision ray is attached to the camera node (line 34),
and the method sets its origin to `(0, 0, 10000)` and direction
`(0, 0, -1)` *in camera space* (lines 429-430); for a level camera that
is the vertical line through the camera's own planar position.  The
`x`, `y` parameters are used only in the warning message (line 446), not
in the query.  `hits px py` lists the surface z of every collision entry
of the vertical line at planar position `(px, py)`; on a miss the method
returns 0 (line 447). -/
def find_ground_height (hits : ℚ → ℚ → List ℚ) (pose : Pose) (x y : ℚ) : ℚ :=
  match selectTopHit (hits pose.x pose.y) with
  | some z => z
  | none => 0

/-- simple_camera_viewer.py lines 344-349: the movement intent vector
before normalization.  `fwd` stands for the heading-dependent planar
forward vector `(sin heading_rad, -cos heading_rad)` of lines 328-335
(trigonometry is kept as a parameter); the right vector is
`(forward.y, -forward.x)` (lines 338-342).  The key tests subtract or
add exactly as lines 346-349 do. -/
def moveVecRaw (keys : KeyMap) (fwd : ℚ × ℚ) : ℚ × ℚ :=
  let rgt : ℚ × ℚ := (fwd.2, -fwd.1)
  let v : ℚ × ℚ := (0, 0)
  let v := if keys.forward then (v.1 - fwd.1, v.2 - fwd.2) else v
  let v := if keys.backward then (v.1 + fwd.1, v.2 + fwd.2) else v
  let v := if keys.left then (v.1 + rgt.1, v.2 + rgt.2) else v
  let v := if keys.right then (v.1 - rgt.1, v.2 - rgt.2) else v
  v

/-- simple_camera_viewer.py lines 352-381: movement resolution.
`norm` stands for Panda3D's `Vec3.normalize` (line 353), kept as a
parameter (it divides by a square-root length; at every input used in
this development the raw vector is already unit length, so it is the
identity there).  The guard `move_vec.length() > 0` holds exactly when
the raw vector is nonzero.  Both ground queries of lines 359-360 are
made before the camera moves, so both are evaluated at the same pose. -/
def movePhase (hits : ℚ → ℚ → List ℚ) (keys : KeyMap) (fwd : ℚ × ℚ)
    (norm : ℚ × ℚ → ℚ × ℚ) (dt : ℚ) (pose : Pose) : Pose :=
  let raw := moveVecRaw keys fwd
  if raw ≠ (0, 0) then
    let u := norm raw
    let mv : ℚ × ℚ := (u.1 * (dt * speedC), u.2 * (dt * speedC))
    let desired : ℚ × ℚ := (pose.x + mv.1, pose.y + mv.2)
    let newGround := find_ground_height hits pose desired.1 desired.2
    let curGround := find_ground_height hits pose pose.x pose.y
    let heightDiff := newGround - curGround
    let maxClimb := speedC * dt
    if |heightDiff| ≤ maxClimb then
      { pose with x := desired.1, y := desired.2, z := newGround + eyeHeight }
    else if heightDiff > 0 then
      let slide : ℚ × ℚ := (pose.x + mv.1 * (2/10), pose.y + mv.2 * (2/10))
      let slideGround := find_ground_height hits pose slide.1 slide.2
      { pose with x := slide.1, y := slide.2, z := slideGround + eyeHeight }
    else
      let slide : ℚ × ℚ := (pose.x + mv.1 * (1/2), pose.y + mv.2 * (1/2))
      let slideGround := find_ground_height hits pose slide.1 slide.2
      { pose with x := slide.1, y := slide.2, z := slideGround + eyeHeight }
  else pose

/-- simple_camera_viewer.py lines 383-386: after movement resolution the
camera is always re-grounded — re-query at the (already moved) camera
position and force `z = ground + eye_height`. -/
def reground (hits : ℚ → ℚ → List ℚ) (pose : Pose) : Pose :=
  { pose with z := find_ground_height hits pose pose.x pose.y + eyeHeight }

/-- One full `SimpleCameraViewer.moveTask` step (lines 323-396, the pose
part: the coordinate display of lines 389-394 has no pose effect). -/
def moveTask (hits : ℚ → ℚ → List ℚ) (keys : KeyMap) (fwd : ℚ × ℚ)
    (norm : ℚ × ℚ → ℚ × ℚ) (dt : ℚ) (pose : Pose) : Pose :=
  reground hits (movePhase hits keys fwd norm dt pose)

/-- `WorldViewer.moveTask` ground selection
(simple_world/world_viewer.py lines 344-354):
`if self.groundHandler.getNumEntries() > 0: entry = self.groundHandler.getEntry(0)`
— the first entry of the collision queue is used; the queue is never
sorted (`sortEntries` is not called anywhere in the repository). -/
def worldViewerGroundZ (entries : List ℚ) : Option ℚ :=
  entries.head?

/-! Concrete fixtures used by witnesses and counterexamples. -/

/-- Identity-scale affine transform (a = e = 1, no shear, no offset). -/
def tId : AffineT := ⟨1, 0, 0, 0, 1, 0⟩

/-- 2×2 grid with elevations `[[0, 4], [8, 4]]`. -/
def gC4 : Grid :=
  ⟨2, 2, fun i j => if i = 0 then (if j = 0 then 0 else 4) else (if j = 0 then 8 else 4)⟩

/-- 2×2 grid with constant elevation 5. -/
def gFlat : Grid := ⟨2, 2, fun _ _ => 5⟩

/-- 3×4 grid with constant elevation 0 (downsampling by 2 gives 1×2). -/
def gSmall : Grid := ⟨3, 4, fun _ _ => 0⟩

/-- 3×3 grid with elevations 0..8 row-major. -/
def gW : Grid := ⟨3, 3, fun i j => ((i * 3 + j : Nat) : ℚ)⟩

/-- Heightfield with a 10 m cliff: ground z 0 at y = 0 and 10 at y = 5. -/
def hitsCliff : ℚ → ℚ → List ℚ :=
  fun _ y => if y = 0 then [0] else if y = 5 then [10] else []

/-- Heightfield with ground z 5 at (0, 0) and 7 at (10, 10). -/
def hitsC6 : ℚ → ℚ → List ℚ :=
  fun x y =>
    if x = 0 ∧ y = 0 then [5] else if x = 10 ∧ y = 10 then [7] else []

/-- Heightfield with no geometry anywhere (every query misses). -/
def hitsEmpty : ℚ → ℚ → List ℚ := fun _ _ => []

/-- Only the forward key held. -/
def keysForward : KeyMap := ⟨true, false, false, false⟩

/-- No movement key held. -/
def keysNone : KeyMap := ⟨false, false, false, false⟩

/-- Observer standing at the origin on ground 0 (eye height above it). -/
def poseStart : Pose := ⟨0, 0, 17/10, 0, 0⟩

/-- Observer at the origin with a remembered height of 50. -/
def poseHigh : Pose := ⟨0, 0, 50, 0, 0⟩

/-! ### List helpers -/

theorem flatMap_length_uniform {α β : Type} (l : List α) (g : α → List β) (L : Nat)
    (hL : ∀ a ∈ l, (g a).length = L) : (l.flatMap g).length = l.length * L := by
  induction l with
  | nil => simp
  | cons a t ih =>
      simp only [List.flatMap_cons, List.length_append, List.length_cons]
      rw [hL a (by simp), ih (fun b hb => hL b (by simp [hb]))]
      ring

theorem flatMap_getElem_uniform {α β : Type} (l : List α) (g : α → List β) (L : Nat)
    (hL : ∀ a ∈ l, (g a).length = L) (q r : Nat) (hq : q < l.length) (hr : r < L) :
    (l.flatMap g)[q * L + r]? = (g l[q])[r]? := by
  induction l generalizing q with
  | nil => exact absurd hq (by simp)
  | cons a t ih =>
      rw [List.flatMap_cons]
      cases q with
      | zero =>
          rw [Nat.zero_mul, Nat.zero_add,
            List.getElem?_append_left (by rw [hL a (by simp)]; exact hr)]
          simp
      | succ q' =>
          have hlen : (g a).length = L := hL a (by simp)
          have harith : (q' + 1) * L + r = (g a).length + (q' * L + r) := by
            rw [hlen]; ring
          rw [harith, List.getElem?_append_right (by omega), Nat.add_sub_cancel_left]
          have := ih (fun b hb => hL b (by simp [hb])) q' (by simpa using hq)
          simpa using this

theorem flat2d_length (r c : Nat) (f : Nat → Nat → ℚ) :
    (flat2d r c f).length = r * c := by
  unfold flat2d
  rw [flatMap_length_uniform _ _ c (fun a _ => by simp)]
  simp

theorem flat2d_getElem (r c : Nat) (f : Nat → Nat → ℚ) (i j : Nat)
    (hi : i < r) (hj : j < c) :
    (flat2d r c f)[i * c + j]? = some (f i j) := by
  unfold flat2d
  rw [flatMap_getElem_uniform _ _ c (fun a _ => by simp) i j (by simpa) hj]
  simp [hj]

theorem minMaxNormVals_length (scal : ℚ) (l : List ℚ) :
    (minMaxNormVals scal l).length = l.length := by
  unfold minMaxNormVals
  cases h1 : l.min? with
  | none => simp [List.min?_eq_none_iff.mp h1]
  | some lo =>
      cases h2 : l.max? with
      | none =>
          have hnil : l = [] := List.max?_eq_none_iff.mp h2
          subst hnil; simp at h1
      | some hi => by_cases h : hi = lo <;> simp [h]

theorem foldl_min_le_init (l : List ℚ) (a : ℚ) : l.foldl min a ≤ a := by
  induction l generalizing a with
  | nil => simp
  | cons b t ih => exact le_trans (ih (min a b)) (min_le_left a b)

theorem foldl_min_le_mem (l : List ℚ) (x : ℚ) (hx : x ∈ l) (a : ℚ) :
    l.foldl min a ≤ x := by
  induction l generalizing a with
  | nil => simp at hx
  | cons b t ih =>
      rcases List.mem_cons.mp hx with h | h
      · subst h
        exact le_trans (foldl_min_le_init t (min a x)) (min_le_right a x)
      · exact ih h (min a b)

theorem le_foldl_max_init (l : List ℚ) (a : ℚ) : a ≤ l.foldl max a := by
  induction l generalizing a with
  | nil => simp
  | cons b t ih => exact le_trans (le_max_left a b) (ih (max a b))

theorem le_foldl_max_mem (l : List ℚ) (x : ℚ) (hx : x ∈ l) (a : ℚ) :
    x ≤ l.foldl max a := by
  induction l generalizing a with
  | nil => simp at hx
  | cons b t ih =>
      rcases List.mem_cons.mp hx with h | h
      · subst h
        exact le_trans (le_max_right a x) (le_foldl_max_init t (max a x))
      · exact ih h (max a b)

theorem min?_le_of_mem (l : List ℚ) (m x : ℚ) (hm : l.min? = some m)
    (hx : x ∈ l) : m ≤ x := by
  cases l with
  | nil => simp at hx
  | cons a t =>
      rw [List.min?_cons'] at hm
      injection hm with hm
      subst hm
      rcases List.mem_cons.mp hx with h | h
      · subst h; exact foldl_min_le_init t x
      · exact foldl_min_le_mem t x h a

theorem le_max?_of_mem (l : List ℚ) (M x : ℚ) (hM : l.max? = some M)
    (hx : x ∈ l) : x ≤ M := by
  cases l with
  | nil => simp at hx
  | cons a t =>
      rw [List.max?_cons'] at hM
      injection hM with hM
      subst hM
      rcases List.mem_cons.mp hx with h | h
      · subst h; exact le_foldl_max_init t x
      · exact le_foldl_max_mem t x h a

theorem sorted_le_getLast? : ∀ (l : List ℚ), l.Sorted (· ≤ ·) →
    ∀ z, l.getLast? = some z → ∀ w ∈ l, w ≤ z := by
  intro l
  induction l with
  | nil => intro _ z _ w hw; simp at hw
  | cons a t ih =>
      intro hs z hz w hw
      cases t with
      | nil =>
          simp only [List.getLast?_singleton] at hz
          injection hz with hz
          subst hz
          rcases List.mem_cons.mp hw with h | h
          · subst h; exact le_refl w
          · simp at h
      | cons b t' =>
          rw [List.getLast?_cons_cons] at hz
          have hzt : z ∈ b :: t' := by
            rcases List.mem_getLast?_eq_getLast (Option.mem_def.mpr hz) with ⟨hne, hzeq⟩
            exact hzeq ▸ List.getLast_mem hne
          rcases List.mem_cons.mp hw with h | h
          · subst h; exact (List.sorted_cons.mp hs).1 z hzt
          · exact ih (List.sorted_cons.mp hs).2 z hz w h

theorem linIdx_factor_one (n i : Nat) (hn : 2 ≤ n) : linIdx (n - 1) n i = i := by
  unfold linIdx
  rw [if_neg (by omega)]
  exact Nat.mul_div_cancel _ (by omega)

theorem downsample_one_rows (g : Grid) : (downsampleDem g 1).rows = g.rows :=
  Nat.div_one g.rows

theorem downsample_one_cols (g : Grid) : (downsampleDem g 1).cols = g.cols :=
  Nat.div_one g.cols

theorem downsample_one_elev (g : Grid) (hr : 2 ≤ g.rows) (hc : 2 ≤ g.cols) :
    (downsampleDem g 1).elev = g.elev := by
  funext i j
  show g.elev (linIdx (g.rows - 1) (g.rows / 1) i) (linIdx (g.cols - 1) (g.cols / 1) j)
      = g.elev i j
  rw [Nat.div_one, Nat.div_one, linIdx_factor_one _ _ hr, linIdx_factor_one _ _ hc]

theorem facesList_length (rows cols : Nat) :
    (facesList rows cols).length = 2 * (rows - 1) * (cols - 1) := by
  unfold facesList
  rw [flatMap_length_uniform _ _ ((cols - 1) * 2) ?_]
  · simp only [List.length_range]; ring
  · intro a _
    rw [flatMap_length_uniform _ _ 2 ?_]
    · simp
    · intro b _
      rfl

theorem facesList_mem (rows cols : Nat) (t : Nat × Nat × Nat) :
    t ∈ facesList rows cols ↔
      ∃ i j, i < rows - 1 ∧ j < cols - 1 ∧
        (t = (i * cols + j, i * cols + j + cols, i * cols + j + cols + 1) ∨
         t = (i * cols + j, i * cols + j + cols + 1, i * cols + j + 1)) := by
  unfold facesList
  simp only [List.mem_flatMap, List.mem_range, List.mem_cons, List.not_mem_nil, or_false]
  constructor
  · rintro ⟨i, hi, j, hj, h⟩
    exact ⟨i, j, hi, hj, h⟩
  · rintro ⟨i, j, hi, hj, h⟩
    exact ⟨i, hi, j, hj, h⟩

theorem meshVertices_length (g : Grid) (T : AffineT) (factor : Nat) :
    (meshVertices g T factor).length =
      (downsampleDem g factor).rows * (downsampleDem g factor).cols := by
  unfold meshVertices
  simp [List.length_zip, minMaxNormVals_length, flat2d_length]

theorem minMaxNormVals_bounds (scal : ℚ) (hs : 0 ≤ scal) (l : List ℚ)
    (o : Option ℚ) (ho : o ∈ minMaxNormVals scal l) (q : ℚ) (hq : o = some q) :
    0 ≤ q ∧ q ≤ scal := by
  subst hq
  unfold minMaxNormVals at ho
  cases h1 : l.min? with
  | none => rw [h1] at ho; simp at ho
  | some lo =>
      cases h2 : l.max? with
      | none =>
          have hnil : l = [] := List.max?_eq_none_iff.mp h2
          subst hnil; simp at h1
      | some hi =>
          rw [h1, h2] at ho
          replace ho : some q ∈ (if hi = lo then l.map fun _ => (none : Option ℚ)
              else l.map fun v => some ((v - lo) / (hi - lo) * scal)) := ho
          by_cases hEq : hi = lo
          · rw [if_pos hEq] at ho
            rcases List.mem_map.mp ho with ⟨v, _, hveq⟩
            simp at hveq
          · rw [if_neg hEq] at ho
            rcases List.mem_map.mp ho with ⟨v, hvmem, hveq⟩
            have hq' : (v - lo) / (hi - lo) * scal = q := by
              injection hveq
            have hlov : lo ≤ v := min?_le_of_mem l lo v h1 hvmem
            have hvhi : v ≤ hi := le_max?_of_mem l hi v h2 hvmem
            have hd : 0 < hi - lo := by
              rcases lt_or_eq_of_le (le_trans hlov hvhi) with h | h
              · linarith
              · exact absurd h.symm hEq
            have hq0 : 0 ≤ (v - lo) / (hi - lo) :=
              div_nonneg (by linarith) (le_of_lt hd)
            have hq1 : (v - lo) / (hi - lo) ≤ 1 :=
              (div_le_one hd).mpr (by linarith)
            constructor
            · rw [← hq']; exact mul_nonneg hq0 hs
            · rw [← hq']
              calc (v - lo) / (hi - lo) * scal ≤ 1 * scal :=
                    mul_le_mul_of_nonneg_right hq1 hs
                _ = scal := one_mul scal

theorem flat2d_const_mem (r c : Nat) (f : Nat → Nat → ℚ) (cst : ℚ)
    (hf : ∀ i j, f i j = cst) (x : ℚ) (hx : x ∈ flat2d r c f) : x = cst := by
  unfold flat2d at hx
  rcases List.mem_flatMap.mp hx with ⟨i, _, hxi⟩
  rcases List.mem_map.mp hxi with ⟨j, _, hxj⟩
  rw [← hxj, hf]

theorem minMaxNormVals_allEq (scal : ℚ) (l : List ℚ) (cst : ℚ)
    (hall : ∀ x ∈ l, x = cst) (o : Option ℚ) (ho : o ∈ minMaxNormVals scal l) :
    o = none := by
  unfold minMaxNormVals at ho
  cases h1 : l.min? with
  | none => rw [h1] at ho; simp at ho
  | some lo =>
      cases h2 : l.max? with
      | none =>
          have hnil : l = [] := List.max?_eq_none_iff.mp h2
          subst hnil; simp at h1
      | some hi =>
          rw [h1, h2] at ho
          replace ho : o ∈ (if hi = lo then l.map fun _ => (none : Option ℚ)
              else l.map fun v => some ((v - lo) / (hi - lo) * scal)) := ho
          have hlo : lo = cst := hall lo (List.min?_mem (fun a b => min_choice a b) h1)
          have hhi : hi = cst := hall hi (List.max?_mem (fun a b => max_choice a b) h2)
          rw [if_pos (hhi.trans hlo.symm)] at ho
          rcases List.mem_map.mp ho with ⟨v, _, hveq⟩
          exact hveq.symm

theorem selectTopHit_spec (entries : List ℚ) (z : ℚ)
    (h : selectTopHit entries = some z) :
    z ∈ entries ∧ ∀ w ∈ entries, w ≤ z := by
  unfold selectTopHit at h
  have hperm := List.perm_insertionSort (α := ℚ) (· ≤ ·) entries
  have hsort := List.sorted_insertionSort (α := ℚ) (· ≤ ·) entries
  constructor
  · rcases List.mem_getLast?_eq_getLast (Option.mem_def.mpr h) with ⟨hne, hzeq⟩
    exact hperm.mem_iff.mp (hzeq ▸ List.getLast_mem hne)
  · intro w hw
    exact sorted_le_getLast? _ hsort z h w (hperm.mem_iff.mpr hw)

/-! ### Concrete evaluations -/

theorem meshVertices_gC4_eval :
    meshVertices gC4 tId 1 =
      [(some 0, some 0, some 0), (some 0, some 1000, some 50),
       (some 1000, some 0, some 100), (some 1000, some 1000, some 50)] := by
  norm_num [meshVertices, downsampleDem, linIdx, flat2d, worldXRaw, worldYRaw,
    minMaxNormVals, gC4, tId, List.range_succ, List.min?_cons', List.max?_cons',
    min_def, max_def]

theorem meshVertices_gFlat_eval :
    meshVertices gFlat tId 1 =
      [(some 0, some 0, none), (some 0, some 1000, none),
       (some 1000, some 0, none), (some 1000, some 1000, none)] := by
  norm_num [meshVertices, downsampleDem, linIdx, flat2d, worldXRaw, worldYRaw,
    minMaxNormVals, gFlat, tId, List.range_succ, List.min?_cons', List.max?_cons',
    min_def, max_def]

/-! ### Claims -/

/-- C1: for every elevation grid with rows, cols ≥ 2 built at downsample
factor 1, the mesh builder emits exactly rows*cols vertices (row-major:
the flattened value at index row*cols + col is the elevation of cell
(row, col)) and exactly 2*(rows-1)*(cols-1) triangles before cleanup,
and every emitted triangle splits a quad as triangle
A = (top-left, bottom-left, bottom-right) or triangle
B = (top-left, bottom-right, top-right) — the same diagonal
(top-left/bottom-right) for every quad. -/
theorem claim1_build_factor_one (g : Grid) (T : AffineT)
    (hr : 2 ≤ g.rows) (hc : 2 ≤ g.cols) :
    (meshVertices g T 1).length = g.rows * g.cols ∧
    (∀ i j, i < g.rows → j < g.cols →
      (flat2d (downsampleDem g 1).rows (downsampleDem g 1).cols
          (downsampleDem g 1).elev)[i * g.cols + j]? = some (g.elev i j)) ∧
    (meshFaces g 1).length = 2 * (g.rows - 1) * (g.cols - 1) ∧
    (∀ t, t ∈ meshFaces g 1 ↔
      ∃ i j, i < g.rows - 1 ∧ j < g.cols - 1 ∧
        (t = (i * g.cols + j, i * g.cols + j + g.cols, i * g.cols + j + g.cols + 1) ∨
         t = (i * g.cols + j, i * g.cols + j + g.cols + 1, i * g.cols + j + 1))) := by
  refine ⟨?_, ?_, ?_, ?_⟩
  · rw [meshVertices_length, downsample_one_rows, downsample_one_cols]
  · intro i j hi hj
    rw [downsample_one_rows, downsample_one_cols, downsample_one_elev g hr hc]
    exact flat2d_getElem _ _ _ i j hi hj
  · unfold meshFaces
    rw [downsample_one_rows, downsample_one_cols, facesList_length]
  · intro t
    unfold meshFaces
    rw [downsample_one_rows, downsample_one_cols]
    exact facesList_mem g.rows g.cols t

/-- Witness for C1 at the concrete 3×3 grid `gW`: 9 vertices, 8 faces. -/
theorem claim1_build_factor_one_witness :
    (2 ≤ gW.rows ∧ 2 ≤ gW.cols) ∧
    (meshVertices gW tId 1).length = 9 ∧ (meshFaces gW 1).length = 8 :=
  ⟨⟨by decide, by decide⟩,
   ((claim1_build_factor_one gW tId (by decide) (by decide)).1).trans (by decide),
   ((claim1_build_factor_one gW tId (by decide) (by decide)).2.2.1).trans (by decide)⟩

/-- C2 (code bug): the claim's climb-rate policy is defeated by
`find_ground_height` ignoring its x, y arguments.  At the concrete cliff
input, the true height difference 10 exceeds maxClimb = speed·dt = 5, so
the claim requires the 0.2-fraction slide, yet the step commits the full
displacement (final planar position (0, 5)) and the z teleports to the
far ground height plus eye height (11.7): both ground queries of
lines 359-360 are evaluated at the camera's pre-move position, making
the code's heightDiff 0. -/
theorem claim2_climb_policy_defeated :
    moveTask hitsCliff keysForward (0, -1) (fun v => v) 1 poseStart =
      { x := 0, y := 5, z := 117/10, heading := 0, pitch := 0 } ∧
    selectTopHit (hitsCliff 0 5) = some 10 ∧
    selectTopHit (hitsCliff 0 0) = some 0 ∧
    ¬ ((10 : ℚ) - 0 ≤ speedC * 1) := by
  refine ⟨?_, by decide, by decide, by norm_num [speedC]⟩
  unfold moveTask reground movePhase moveVecRaw find_ground_height selectTopHit
  norm_num [hitsCliff, keysForward, poseStart, speedC, eyeHeight,
    List.insertionSort, List.orderedInsert, Prod.ext_iff]

/-- C3: after every simulation step, whatever branch was taken, the
observer's z equals the ground height the query returns at the final
camera position plus the eye height (lines 383-386 always re-ground). -/
theorem claim3_always_grounded (hits : ℚ → ℚ → List ℚ) (keys : KeyMap)
    (fwd : ℚ × ℚ) (norm : ℚ × ℚ → ℚ × ℚ) (dt : ℚ) (pose : Pose) :
    (moveTask hits keys fwd norm dt pose).z =
      find_ground_height hits (moveTask hits keys fwd norm dt pose)
        (moveTask hits keys fwd norm dt pose).x
        (moveTask hits keys fwd norm dt pose).y + eyeHeight := rfl

/-- C4 counterexample: on the 2×2 grid `[[0, 4], [8, 4]]` with the
identity transform at factor 1, vertex index 1 (row 0, col 1) carries
coordinates (0, 1000, 50): its z is not the sampled elevation 4, and its
x is not the affine transform of its original indices (3/2) — the
coordinates are min-max normalized, not world-space meters. -/
theorem claim4_counterexample :
    (meshVertices gC4 tId 1)[1]? = some (some 0, some 1000, some 50) ∧
    gC4.elev 0 1 = 4 ∧ ¬ ((50 : ℚ) = 4) ∧
    claimedWorldX tId 0 1 = 3/2 ∧ ¬ ((0 : ℚ) = 3/2) := by
  refine ⟨?_, by decide, by norm_num, by norm_num [claimedWorldX, tId], by norm_num⟩
  rw [meshVertices_gC4_eval]
  rfl

/-- C4 amended: every defined vertex coordinate of the built mesh is
min-max normalized — x and y lie in [0, 1000] and z in [0, 100]
regardless of the grid's true extent or elevations, so the vertices do
not carry world-space meters and metric accuracy is not preserved. -/
theorem claim4_amended_normalized (g : Grid) (T : AffineT) (factor : Nat)
    (v : Option ℚ × Option ℚ × Option ℚ) (hv : v ∈ meshVertices g T factor) :
    (∀ q, v.1 = some q → 0 ≤ q ∧ q ≤ 1000) ∧
    (∀ q, v.2.1 = some q → 0 ≤ q ∧ q ≤ 1000) ∧
    (∀ q, v.2.2 = some q → 0 ≤ q ∧ q ≤ 100) := by
  obtain ⟨a, b, c⟩ := v
  unfold meshVertices at hv
  have h1 := List.of_mem_zip hv
  have h2 := List.of_mem_zip h1.2
  exact ⟨fun q hq => minMaxNormVals_bounds 1000 (by norm_num) _ a h1.1 q hq,
         fun q hq => minMaxNormVals_bounds 1000 (by norm_num) _ b h2.1 q hq,
         fun q hq => minMaxNormVals_bounds 100 (by norm_num) _ c h2.2 q hq⟩

/-- Witness for C4's amended statement at the concrete grid `gC4`:
vertex index 1 is a member and its coordinates obey the bounds. -/
theorem claim4_amended_witness :
    ((some 0, some 1000, some 50) ∈ meshVertices gC4 tId 1) ∧
    ((∀ q, ((some (0 : ℚ), some (1000 : ℚ), some (50 : ℚ)) :
        Option ℚ × Option ℚ × Option ℚ).1 = some q → 0 ≤ q ∧ q ≤ 1000) ∧
     (∀ q, ((some (0 : ℚ), some (1000 : ℚ), some (50 : ℚ)) :
        Option ℚ × Option ℚ × Option ℚ).2.1 = some q → 0 ≤ q ∧ q ≤ 1000) ∧
     (∀ q, ((some (0 : ℚ), some (1000 : ℚ), some (50 : ℚ)) :
        Option ℚ × Option ℚ × Option ℚ).2.2 = some q → 0 ≤ q ∧ q ≤ 100)) := by
  have hmem : (some 0, some 1000, some 50) ∈ meshVertices gC4 tId 1 := by
    rw [meshVertices_gC4_eval]; simp
  exact ⟨hmem, claim4_amended_normalized gC4 tId 1 (some 0, some 1000, some 50) hmem⟩

/-- C5 counterexample: with collision entries [2, 7] (first entry 2,
topmost 7), `WorldViewer.moveTask` uses the first queue entry, 2, while
the topmost surface is 7 — the greatest-z policy is not applied
uniformly by every caller. -/
theorem claim5_counterexample :
    worldViewerGroundZ [2, 7] = some 2 ∧ selectTopHit [2, 7] = some 7 ∧
    ¬ ((2 : ℚ) = 7) := by decide

/-- C5 amended: `SimpleCameraViewer.find_ground_height` does select the
intersection with the greatest z among the entries, but the policy is
not applied by every caller: `WorldViewer.moveTask` takes the first,
unsorted collision entry. -/
theorem claim5_topmost_policy (entries : List ℚ) (z : ℚ)
    (h : selectTopHit entries = some z) :
    (z ∈ entries ∧ ∀ w ∈ entries, w ≤ z) ∧
    (worldViewerGroundZ [2, 7] = some 2 ∧ selectTopHit [2, 7] = some 7) :=
  ⟨selectTopHit_spec entries z h, by decide, by decide⟩

/-- Witness for C5's amended statement on the entry list [2, 7]. -/
theorem claim5_topmost_policy_witness :
    selectTopHit [(2 : ℚ), 7] = some 7 ∧
    (((7 : ℚ) ∈ [(2 : ℚ), 7] ∧ ∀ w ∈ [(2 : ℚ), 7], w ≤ 7) ∧
     (worldViewerGroundZ [2, 7] = some 2 ∧ selectTopHit [2, 7] = some 7)) :=
  ⟨by decide, claim5_topmost_policy [2, 7] 7 (by decide)⟩

/-- C6 (code bug): `find_ground_height`'s docstring says "Find the
ground height at a given x,y position", but the returned height is not a
function of the x, y arguments: with the camera at (0, 0) over ground 5,
querying (10, 10) — where the ground is 7 — returns 5, because the ray
origin (0, 0, 10000) is fixed in the camera's frame (line 429). -/
theorem claim6_query_ignores_args :
    find_ground_height hitsC6 poseStart 10 10 = 5 ∧
    hitsC6 10 10 = [7] ∧ ¬ ((5 : ℚ) = 7) := by decide

/-- C7 counterexample: for the flat 2×2 grid with constant elevation 5,
the z normalization `(z - min)/(max - min) * 100` divides 0 by 0 (NaN in
numpy, `none` here), so no vertex of the built mesh carries a finite
height — in particular none carries height 5, and a height query on the
mesh cannot return 5. -/
theorem claim7_counterexample :
    (∀ v ∈ meshVertices gFlat tId 1, v.2.2 = none ∧ v.2.2 ≠ some 5) ∧
    minMaxNormVals 100 (flat2d 2 2 gFlat.elev) = [none, none, none, none] := by
  constructor
  · rw [meshVertices_gFlat_eval]
    simp
  · norm_num [minMaxNormVals, flat2d, gFlat, List.range_succ, List.min?_cons',
      List.max?_cons', min_def, max_def]

/-- C7 amended: for every grid with a constant elevation, the z min-max
normalization of the mesh builder divides by zero, so every vertex's
height is non-finite (NaN): the flat-grid height-query round trip fails
because the built mesh has no finite heights at all. -/
theorem claim7_amended_flat_nan (g : Grid) (T : AffineT) (factor : Nat) (h : ℚ)
    (hflat : ∀ i j, g.elev i j = h) :
    ∀ v ∈ meshVertices g T factor, v.2.2 = none := by
  intro v hv
  obtain ⟨a, b, c⟩ := v
  unfold meshVertices at hv
  have h2 := List.of_mem_zip (List.of_mem_zip hv).2
  refine minMaxNormVals_allEq 100 _ h ?_ c h2.2
  intro x hx
  refine flat2d_const_mem _ _ _ h ?_ x hx
  intro i j
  show g.elev _ _ = h
  exact hflat _ _

/-- Witness for C7's amended statement at the flat grid `gFlat`. -/
theorem claim7_amended_witness :
    (∀ i j, gFlat.elev i j = 5) ∧
    ∀ v ∈ meshVertices gFlat tId 1, v.2.2 = none :=
  ⟨fun _ _ => rfl, claim7_amended_flat_nan gFlat tId 1 5 (fun _ _ => rfl)⟩

/-- C8 counterexample: on a 3×4 grid with factor 2, the downsampled
row count is 1 < 2; the spec-modelled sampler fails with
`InvalidGridError`, but the code's sampler returns a 1×2 grid and the
builder proceeds, emitting 2 vertices and an empty face list — no typed
failure is raised. -/
theorem claim8_counterexample :
    sampleSpec gSmall 2 = .error .invalidGrid ∧
    (downsampleDem gSmall 2).rows = 1 ∧
    (downsampleDem gSmall 2).cols = 2 ∧
    meshFaces gSmall 2 = [] ∧
    (meshVertices gSmall tId 2).length = 2 :=
  ⟨rfl, by decide, by decide, by decide,
   (meshVertices_length gSmall tId 2).trans (by decide)⟩

/-- C8 amended: the sampler computes newRows = floor(rows/factor) and
newCols = floor(cols/factor), but performs no validation: there is no
`InvalidGridError`; when a computed dimension drops below 2 the call
proceeds and the triangulation loop simply emits no faces. -/
theorem claim8_amended_no_validation (g : Grid) (factor : Nat) :
    (downsampleDem g factor).rows = g.rows / factor ∧
    (downsampleDem g factor).cols = g.cols / factor ∧
    ((downsampleDem g factor).rows < 2 → meshFaces g factor = []) ∧
    ((downsampleDem g factor).cols < 2 → meshFaces g factor = []) := by
  refine ⟨rfl, rfl, ?_, ?_⟩
  · intro hlt
    unfold meshFaces facesList
    have hz : (downsampleDem g factor).rows - 1 = 0 := by omega
    rw [hz]
    rfl
  · intro hlt
    unfold meshFaces facesList
    have hz : (downsampleDem g factor).cols - 1 = 0 := by omega
    rw [hz]
    simp

/-- Witness for C8's amended statement at the 3×4 grid with factor 2. -/
theorem claim8_amended_witness :
    (downsampleDem gSmall 2).rows < 2 ∧ meshFaces gSmall 2 = [] :=
  ⟨by decide, (claim8_amended_no_validation gSmall 2).2.2.1 (by decide)⟩

/-- C9 counterexample: with no geometry anywhere (every ground query
misses) and a previous z of 50, one idle step sets z to 0 + eyeHeight =
1.7: the navigator substitutes ground height 0 instead of holding the
previous z. -/
theorem claim9_counterexample :
    moveTask hitsEmpty keysNone (0, -1) (fun v => v) 1 poseHigh =
      { x := 0, y := 0, z := 17/10, heading := 0, pitch := 0 } ∧
    poseHigh.z = 50 ∧ ¬ ((17/10 : ℚ) = 50) := by
  refine ⟨?_, rfl, by norm_num⟩
  show (⟨0, 0, 0 + eyeHeight, 0, 0⟩ : Pose) = ⟨0, 0, 17/10, 0, 0⟩
  simp [eyeHeight]

/-- C9 amended: a ground-query miss is recoverable and the step
continues (no exception), and a diagnostic is printed, but the query
returns 0 and the step forces z = 0 + eyeHeight, substituting height 0
rather than keeping the previous z. -/
theorem claim9_miss_returns_zero (hits : ℚ → ℚ → List ℚ) (keys : KeyMap)
    (fwd : ℚ × ℚ) (norm : ℚ × ℚ → ℚ × ℚ) (dt : ℚ) (pose : Pose) (x y : ℚ)
    (hmiss : ∀ a b, hits a b = []) :
    find_ground_height hits pose x y = 0 ∧
    (moveTask hits keys fwd norm dt pose).z = 0 + eyeHeight := by
  constructor
  · unfold find_ground_height selectTopHit
    rw [hmiss]
    rfl
  · show find_ground_height hits _ _ _ + eyeHeight = 0 + eyeHeight
    unfold find_ground_height selectTopHit
    rw [hmiss]
    rfl

/-- Witness for C9's amended statement with the empty heightfield. -/
theorem claim9_miss_witness :
    (∀ a b, hitsEmpty a b = []) ∧
    (find_ground_height hitsEmpty poseHigh 0 0 = 0 ∧
     (moveTask hitsEmpty keysNone (0, -1) (fun v => v) 1 poseHigh).z = 0 + eyeHeight) :=
  ⟨fun _ _ => rfl,
   claim9_miss_returns_zero hitsEmpty keysNone (0, -1) (fun v => v) 1 poseHigh 0 0
     (fun _ _ => rfl)⟩

/-- C10: when no movement key is pressed, the step leaves the planar
position, heading and pitch unchanged; the only field it modifies is z,
re-assigned to the ground height at the current position plus eye
height. -/
theorem claim10_idle_step (hits : ℚ → ℚ → List ℚ) (fwd : ℚ × ℚ)
    (norm : ℚ × ℚ → ℚ × ℚ) (dt : ℚ) (pose : Pose) :
    moveTask hits keysNone fwd norm dt pose =
      { pose with z := find_ground_height hits pose pose.x pose.y + eyeHeight } := rfl

end TifToImage
